import Mathlib

/-!
Shallow embedding of the reconciliation engine of `src/pdf_tools/services.py`
(project "Reconciliação de Boletos com Comprovantes").

Monetary amounts are embedded as rationals (`ℚ`): the Python code computes on
`float`s, but every property below concerns which comparisons are made and in
which order, not floating-point rounding.  Python strings are Lean `String`s;
Python `None` is `Option.none`; ids are `Nat` (the page index `idx`).
-/

namespace Reconc

/-- An entry of `TabelaComprovantes.comprovantes` (method `adicionar`):
one proof-of-payment page with its Gemini-extracted fields.  The
`pdf_bytes` payload is irrelevant to every claim and is omitted. -/
structure Comp where
  id : Nat
  codigo : Option String
  valor : ℚ
  empresa : String
deriving DecidableEq, Repr

/-- Embeds `TabelaComprovantes`: the list of proof records plus the set `usados`
of ids already matched (a Python `set`, embedded as a list with
membership semantics). -/
structure TabelaComprovantes where
  comprovantes : List Comp
  usados : List Nat
deriving DecidableEq, Repr

/-- Embeds `TOLERANCIA_VALOR_PERCENT = 0.02` (module-level constant). -/
def TOLERANCIA_VALOR_PERCENT : ℚ := 2 / 100

/-- Python truthiness of the optional string `codigo`
(`if not codigo`): `None` and `""` are falsy. -/
def pytruthyStr : Option String → Bool
  | none => false
  | some s => !s.isEmpty

/-- Embeds `re.sub(r'[^0-9]', '', s)`: keep only the ASCII digits of `s`. -/
def limpar (s : String) : String :=
  ⟨s.data.filter Char.isDigit⟩

/-- Tests `a.isPrefixOf b` on character lists (used to build the Python
substring test `a in b`). -/
def isPre : List Char → List Char → Bool
  | [], _ => true
  | _ :: _, [] => false
  | x :: xs, y :: ys => x == y && isPre xs ys

/-- Python's substring containment `a in b` on character lists. -/
def isSub (a : List Char) : List Char → Bool
  | [] => isPre a []
  | y :: ys => isPre a (y :: ys) || isSub a ys

/-- Python `a in b` for strings (substring containment). -/
def strIn (a b : String) : Bool := isSub a.data b.data

/-- The characters removed by Python's `str.strip()` (ASCII whitespace;
the code never feeds it the rarer Unicode space characters). -/
def isPyWs (c : Char) : Bool :=
  c == ' ' || c == '\t' || c == '\n' || c == '\r' || c == '\x0b' || c == '\x0c'

/-- Python `s.strip()`. -/
def pyStrip (s : String) : String :=
  ⟨((s.data.dropWhile isPyWs).reverse.dropWhile isPyWs).reverse⟩

/-- Python `s.lower()` (ASCII case folding). -/
def pyLower (s : String) : String :=
  ⟨s.data.map Char.toLower⟩

/-- Left-to-right non-overlapping replacement of the (non-empty) pattern
`p` by `r`, the loop of Python `s.replace(p, r)`.  The fuel argument
(instantiated with the length of the string) only bounds the recursion. -/
def pyReplaceAux (p r : List Char) : ℕ → List Char → List Char
  | _, [] => []
  | 0, s => s
  | fuel + 1, c :: cs =>
    if !p.isEmpty && isPre p (c :: cs) then
      r ++ pyReplaceAux p r fuel (cs.drop (p.length - 1))
    else
      c :: pyReplaceAux p r fuel cs

/-- Python `s.replace(p, r)` (all occurrences). -/
def pyReplace (s p r : String) : String :=
  ⟨pyReplaceAux p.data r.data s.data.length s.data⟩

/-- The acceptance test of the loop body of
`TabelaComprovantes.buscar_por_codigo`: the record is not used, its
stored code is truthy, and the two digit-cleaned codes are equal or one
contains the other (the `elif codigo_limpo in codigo_comp_limpo or
codigo_comp_limpo in codigo_limpo` branch). -/
def matchCodigo (t : TabelaComprovantes) (codigo_limpo : String) (comp : Comp) : Bool :=
  decide (comp.id ∉ t.usados) &&
    match comp.codigo with
    | none => false
    | some cc =>
      !cc.isEmpty &&
        (codigo_limpo == limpar cc ||
          strIn codigo_limpo (limpar cc) || strIn (limpar cc) codigo_limpo)

/-- Embeds `TabelaComprovantes.buscar_por_codigo`: `None`/empty code returns
`None`; otherwise the first not-used record passing `matchCodigo` is
returned (the Python `for` loop returns at the first hit). -/
def buscar_por_codigo (t : TabelaComprovantes) (codigo : Option String) : Option Comp :=
  if pytruthyStr codigo then
    t.comprovantes.find? (matchCodigo t (limpar (codigo.getD "")))
  else
    none

/-- Python's `abs` on a rational (spelled out so that concrete runs
reduce inside the kernel; equal to Mathlib's `|q|` by `pyAbs_eq_abs`). -/
def pyAbs (q : ℚ) : ℚ := if q < 0 then -q else q

/-- Loop body of `buscar_por_valor`: the running best candidate
`(comp, diferenca)` is replaced when the record is unused and
`diferenca <= diferenca_maxima and diferenca < menor_diferenca`
(`menor_diferenca` starts at `inf`, embedded by the `none` case). -/
def melhorValor (usados : List Nat) (valor dmax : ℚ)
    (acc : Option (Comp × ℚ)) (comp : Comp) : Option (Comp × ℚ) :=
  if comp.id ∈ usados then acc
  else
    match acc with
    | none =>
      if pyAbs (comp.valor - valor) ≤ dmax then some (comp, pyAbs (comp.valor - valor))
      else none
    | some (bc, bd) =>
      if pyAbs (comp.valor - valor) ≤ dmax ∧ pyAbs (comp.valor - valor) < bd then
        some (comp, pyAbs (comp.valor - valor))
      else
        some (bc, bd)

/-- Embeds `TabelaComprovantes.buscar_por_valor`: zero amount returns `None`;
otherwise the unused record with the smallest absolute difference within
`valor * tolerancia_percent` is returned (first in table order on ties). -/
def buscar_por_valor (t : TabelaComprovantes) (valor tolerancia_percent : ℚ) : Option Comp :=
  if valor = 0 then none
  else
    (t.comprovantes.foldl (melhorValor t.usados valor (valor * tolerancia_percent)) none).map
      Prod.fst

/-- Embeds `empresa.lower().strip()`. -/
def pyLowerStrip (s : String) : String := pyStrip (pyLower s)

/-- The name-overlap test of `buscar_por_empresa_e_valor`:
`empresa_limpa in comp_empresa or comp_empresa in empresa_limpa`. -/
def empresaOverlap (empresa_limpa comp_empresa : String) : Bool :=
  strIn empresa_limpa comp_empresa || strIn comp_empresa empresa_limpa

/-- Embeds `TabelaComprovantes.buscar_por_empresa_e_valor`: guard
`if not empresa or empresa == 'N/A' or valor == 0`, then the first unused
record whose lowercased/stripped company name overlaps and whose amount
is within `valor * tolerancia_percent`. -/
def buscar_por_empresa_e_valor (t : TabelaComprovantes) (empresa : String)
    (valor tolerancia_percent : ℚ) : Option Comp :=
  if empresa = "" ∨ empresa = "N/A" ∨ valor = 0 then none
  else
    t.comprovantes.find? (fun comp =>
      decide (comp.id ∉ t.usados) &&
        empresaOverlap (pyLowerStrip empresa) (pyLowerStrip comp.empresa) &&
        decide (pyAbs (comp.valor - valor) ≤ valor * tolerancia_percent))

/-- Embeds `TabelaComprovantes.marcar_usado`: add the id to `usados`. -/
def marcar_usado (t : TabelaComprovantes) (id_comp : Nat) : TabelaComprovantes :=
  { t with usados := id_comp :: t.usados }

/-- One invoice as seen by the matching section of
`processar_reconciliacao`: filename plus Gemini-extracted fields
(after the filename-amount fallback has been applied to `valor`). -/
structure Boleto where
  nome : String
  codigo : Option String
  valor : ℚ
  empresa : String
deriving DecidableEq, Repr

/-- The `metodo_match` strings `"CÓDIGO"`, `"EMPRESA+VALOR"`, `"VALOR"`. -/
inductive Metodo where
  | CODIGO
  | EMPRESA_VALOR
  | VALOR
deriving DecidableEq, Repr

/-- Match attempt 1 of `processar_reconciliacao`:
`if codigo_boleto: tabela.buscar_por_codigo(codigo_boleto)`. -/
def pass_codigo (t : TabelaComprovantes) (b : Boleto) : Option Comp :=
  if pytruthyStr b.codigo then buscar_por_codigo t b.codigo else none

/-- Match attempt 2 of `processar_reconciliacao`:
`if not comprovante_encontrado and empresa_boleto != 'N/A' and valor_boleto > 0`. -/
def pass_empresa_valor (t : TabelaComprovantes) (b : Boleto) : Option Comp :=
  if b.empresa ≠ "N/A" ∧ 0 < b.valor then
    buscar_por_empresa_e_valor t b.empresa b.valor TOLERANCIA_VALOR_PERCENT
  else
    none

/-- Match attempt 3 of `processar_reconciliacao`:
`if not comprovante_encontrado and valor_boleto > 0`. -/
def pass_valor (t : TabelaComprovantes) (b : Boleto) : Option Comp :=
  if 0 < b.valor then buscar_por_valor t b.valor TOLERANCIA_VALOR_PERCENT else none

/-- The three-step match strategy of `processar_reconciliacao` for one
invoice: each attempt runs only while `comprovante_encontrado` is still
`None`, and `metodo_match` records the attempt that succeeded. -/
def tentar_match (t : TabelaComprovantes) (b : Boleto) : Option (Comp × Metodo) :=
  match pass_codigo t b with
  | some comp => some (comp, Metodo.CODIGO)
  | none =>
    match pass_empresa_valor t b with
    | some comp => some (comp, Metodo.EMPRESA_VALOR)
    | none =>
      match pass_valor t b with
      | some comp => some (comp, Metodo.VALOR)
      | none => none

/-- One entry of the `resultados` list built by `processar_reconciliacao`. -/
structure Resultado where
  boleto : Boleto
  comprovante : Option Comp
  metodo : Option Metodo
deriving DecidableEq, Repr

/-- The per-invoice step of the matching loop: on a hit, the table marks
the proof used (`tabela.marcar_usado(...)`) and the pairing is recorded;
otherwise the invoice is recorded unmatched. -/
def passo (t : TabelaComprovantes) (b : Boleto) : TabelaComprovantes × Resultado :=
  match tentar_match t b with
  | some (comp, m) => (marcar_usado t comp.id, ⟨b, some comp, some m⟩)
  | none => (t, ⟨b, none, none⟩)

/-- The matching loop of `processar_reconciliacao` over the invoice list
(ingestion order), threading the mutable `tabela`. -/
def processar (t : TabelaComprovantes) : List Boleto → TabelaComprovantes × List Resultado
  | [] => (t, [])
  | b :: bs =>
    let tr := passo t b
    let rest := processar tr.1 bs
    (rest.1, tr.2 :: rest.2)

/-- Ids of the proofs paired by a run, one per matched invoice. -/
def matchedIds (rs : List Resultado) : List Nat :=
  rs.filterMap (fun r => r.comprovante.map Comp.id)

/-!
### Model of `extrair_com_gemini`

The external service call is embedded through an oracle giving the
outcome of each successive attempt; the second component of the result
counts the service calls actually made.  Outcomes: `throttled` (the
service signalled rate-limiting, raised as an exception), `exn` (any
other exception), `malformed` (a response whose text is not valid JSON,
`json.JSONDecodeError`), or `ok` with the three parsed JSON fields.
The display-only field `valor_formatado` (a pure reformatting of
`valor`) is omitted.
-/

/-- Python values reaching `normalizar_valor` (its `isinstance` tests). -/
inductive PyVal where
  | int (n : ℤ)
  | float (q : ℚ)
  | str (s : String)
  | noneV
  | other
deriving DecidableEq, Repr

/-- Python truthiness of a `PyVal`. -/
def pyTruthy : PyVal → Bool
  | .int n => n ≠ 0
  | .float q => q ≠ 0
  | .str s => !s.isEmpty
  | .noneV => false
  | .other => true

/-- Value of an unsigned digit run. -/
def digitsVal (cs : List Char) : ℕ :=
  cs.foldl (fun a c => a * 10 + (c.toNat - 48)) 0

/-- Mantissa of Python `float(s)`: `digits`, `digits.digits`,
`digits.`, or `.digits`. -/
def parseMantissa (cs : List Char) : Option ℚ :=
  let ip := cs.takeWhile (fun c => c != '.')
  let rest := cs.dropWhile (fun c => c != '.')
  match rest with
  | [] => if !ip.isEmpty && ip.all Char.isDigit then some (digitsVal ip) else none
  | _ :: fp =>
    if fp.any (fun c => c == '.') then none
    else if ip.isEmpty && fp.isEmpty then none
    else if ip.all Char.isDigit && fp.all Char.isDigit then
      some ((digitsVal ip : ℚ) + (digitsVal fp : ℚ) / (10 ^ fp.length))
    else none

/-- Optional leading sign in front of the mantissa. -/
def parseSigned (cs : List Char) : Option ℚ :=
  match cs with
  | '+' :: rest => parseMantissa rest
  | '-' :: rest => (parseMantissa rest).map (fun q => -q)
  | _ => parseMantissa cs

/-- Signed integer exponent after `e`/`E`. -/
def parseExp (cs : List Char) : Option ℤ :=
  match cs with
  | '+' :: rest =>
    if !rest.isEmpty && rest.all Char.isDigit then some (digitsVal rest) else none
  | '-' :: rest =>
    if !rest.isEmpty && rest.all Char.isDigit then some (-(digitsVal rest : ℤ)) else none
  | _ => if !cs.isEmpty && cs.all Char.isDigit then some (digitsVal cs) else none

/-- Python's built-in `float(s)` on strings, as an exact rational:
surrounding whitespace is ignored, then an optional sign, a decimal
mantissa and an optional exponent are read.  (The special spellings
`inf`/`nan` and digit-group underscores are not modelled; no claim
depends on them.)  `none` embeds the raised `ValueError`. -/
def pyFloatOfString (s : String) : Option ℚ :=
  let cs := (pyStrip s).data
  let mant := cs.takeWhile (fun c => c != 'e' && c != 'E')
  let rest := cs.dropWhile (fun c => c != 'e' && c != 'E')
  match rest with
  | [] => parseSigned mant
  | _ :: ex =>
    match parseSigned mant, parseExp ex with
    | some m, some e => some (m * (10 : ℚ) ^ e)
    | _, _ => none

/-- Embeds `float(valor)` in the `try` block of `normalizar_valor`, with the
`ValueError` surfaced as `Except.error`. -/
def pyFloat (s : String) : Except String ℚ :=
  match pyFloatOfString s with
  | some q => Except.ok q
  | none => Except.error "could not convert string to float"

/-- The `try: return float(...) except: return 0.0` block: a raised
`ValueError` is caught and turned into the fallback value. -/
def pyTry (e : Except String ℚ) (fallback : ℚ) : Except String ℚ :=
  match e with
  | Except.ok q => Except.ok q
  | Except.error _ => Except.ok fallback

/-- Embeds `normalizar_valor`: numbers pass through; strings are stripped of
`R$` and spaces, a comma-bearing string is rewritten from Brazilian to
dot-decimal form, and the final `float` call falls back to `0.0` on
failure (`except` branch); every other type returns `0.0`.  The
`Except` result shows the function never propagates an exception. -/
def normalizar_valor : PyVal → Except String ℚ
  | .int n => Except.ok (n : ℚ)
  | .float q => Except.ok q
  | .str s =>
    let v1 := pyStrip (pyReplace (pyReplace (pyStrip s) "R$" "") " " "")
    let v2 :=
      if v1.data.any (fun c => c == ',') then pyReplace (pyReplace v1 "." "") "," "."
      else v1
    pyTry (pyFloat v2) 0
  | .noneV => Except.ok 0
  | .other => Except.ok 0

instance exceptDecEq : DecidableEq (Except String ℚ) := fun a b =>
  match a, b with
  | Except.ok x, Except.ok y => decidable_of_iff (x = y) (by simp)
  | Except.error x, Except.error y => decidable_of_iff (x = y) (by simp)
  | Except.ok _, Except.error _ => isFalse (by simp)
  | Except.error _, Except.ok _ => isFalse (by simp)

/-- Extract the value of a `normalizar_valor` result (total, since the
function never errors; the default is irrelevant). -/
def exceptVal (e : Except String ℚ) : ℚ :=
  match e with
  | Except.ok q => q
  | Except.error _ => 0

/-- Outcome of one attempt against the external extraction service. -/
inductive GemOutcome where
  | throttled
  | exn
  | malformed
  | ok (codigo : Option String) (valor : Option PyVal) (empresa : Option String)
deriving Repr

/-- The dictionary returned by `extrair_com_gemini`
(minus `valor_formatado`, see above). -/
structure GemResultado where
  codigo : Option String
  valor : ℚ
  empresa : String
deriving DecidableEq, Repr

/-- The empty result returned on every failure path:
`{'codigo': None, 'valor': 0.0, 'empresa': 'N/A'}`. -/
def gemResultadoVazio : GemResultado := ⟨none, 0, "N/A"⟩

/-- Embeds `valor = normalizar_valor(dados['valor'])` guarded by
`if dados.get('valor') and dados['valor'] not in ['0.00', 'null', None, 'N/A']`. -/
def gemValor : Option PyVal → ℚ
  | none => 0
  | some pv =>
    if pyTruthy pv ∧ pv ≠ .str "0.00" ∧ pv ≠ .str "null" ∧ pv ≠ .str "N/A" then
      exceptVal (normalizar_valor pv)
    else 0

/-- Embeds `dados.get('empresa', 'N/A') or 'N/A'`. -/
def gemEmpresa : Option String → String
  | none => "N/A"
  | some e => if e = "" then "N/A" else e

/-- Embeds `extrair_com_gemini`: a cache hit returns without calling the
service; a PDF yielding no page image returns the empty result without
calling; otherwise exactly one service call is made (`oracle 0`) and any
exception — including throttling — or malformed JSON yields the empty
result (`except` branches), while a parsed response is converted field
by field.  The `Nat` counts service calls made. -/
def extrair_com_gemini (cached : Option GemResultado) (temImagem : Bool)
    (oracle : Nat → GemOutcome) : GemResultado × Nat :=
  match cached with
  | some r => (r, 0)
  | none =>
    if temImagem then
      match oracle 0 with
      | .throttled => (gemResultadoVazio, 1)
      | .exn => (gemResultadoVazio, 1)
      | .malformed => (gemResultadoVazio, 1)
      | .ok codigo valor empresa => (⟨codigo, gemValor valor, gemEmpresa empresa⟩, 1)
    else (gemResultadoVazio, 0)

/-!
### Model of the whole `processar_reconciliacao` run (output side)

Failure points are injected: `leitura_comprovantes = none` embeds
`PdfReader(caminho_comprovantes)` raising (the outer `except ... return`
of ETAPA 1); a `none` in `boletos` embeds the per-invoice `except ...
continue` of ETAPA 2 (the invoice produces no `resultados` entry);
`gerar_ok` embeds the per-entry `except ... continue` of ETAPA 3; and
`zip_ok = false` embeds the archive-level `except ... return`.
-/

/-- How a run ends: `fatal` (an ETAPA-level `except` returned early, no
archive written) or `done` with the list of archive entry names. -/
inductive RunSaida where
  | fatal
  | done (entries : List String)
deriving DecidableEq, Repr

/-- The run skeleton of `processar_reconciliacao`: load the proof table,
match the successfully-read invoices in order, then write one archive
entry per successfully-assembled `resultados` entry. -/
def processar_reconciliacao (leitura_comprovantes : Option (List Comp))
    (boletos : List (Option Boleto)) (gerar_ok : String → Bool) (zip_ok : Bool) : RunSaida :=
  match leitura_comprovantes with
  | none => RunSaida.fatal
  | some comps =>
    let resultados := (processar ⟨comps, []⟩ (boletos.filterMap id)).2
    if zip_ok then
      RunSaida.done ((resultados.filter (fun r => gerar_ok r.boleto.nome)).map
        (fun r => r.boleto.nome))
    else
      RunSaida.fatal

/-!
## General lemmas about the embedded operations
-/

theorem pyAbs_eq_abs (q : ℚ) : pyAbs q = |q| := by
  unfold pyAbs
  rcases le_or_lt 0 q with h | h
  · rw [if_neg (not_lt.mpr h), abs_of_nonneg h]
  · rw [if_pos h, abs_of_neg h]

theorem isSub_nil (l : List Char) : isSub [] l = true := by
  cases l <;> simp [isSub, isPre]

/-- The record returned by `buscar_por_codigo` was not marked used. -/
theorem buscar_por_codigo_not_used {t : TabelaComprovantes} {codigo : Option String}
    {c : Comp} (h : buscar_por_codigo t codigo = some c) : c.id ∉ t.usados := by
  unfold buscar_por_codigo at h
  split at h
  · have hp := List.find?_some h
    unfold matchCodigo at hp
    simp only [Bool.and_eq_true, decide_eq_true_eq] at hp
    exact hp.1
  · exact absurd h (by simp)

/-- The record returned by `buscar_por_codigo` belongs to the table and
passes the code test. -/
theorem buscar_por_codigo_spec {t : TabelaComprovantes} {codigo : Option String}
    {c : Comp} (h : buscar_por_codigo t codigo = some c) :
    c ∈ t.comprovantes ∧ matchCodigo t (limpar (codigo.getD "")) c = true := by
  unfold buscar_por_codigo at h
  split at h
  · exact ⟨List.mem_of_find?_eq_some h, List.find?_some h⟩
  · exact absurd h (by simp)

/-- The record returned by `buscar_por_empresa_e_valor` was not marked
used, overlaps in name and is within tolerance. -/
theorem buscar_por_empresa_e_valor_spec {t : TabelaComprovantes} {empresa : String}
    {valor tol : ℚ} {c : Comp} (h : buscar_por_empresa_e_valor t empresa valor tol = some c) :
    c ∈ t.comprovantes ∧ c.id ∉ t.usados ∧
      empresaOverlap (pyLowerStrip empresa) (pyLowerStrip c.empresa) = true ∧
      pyAbs (c.valor - valor) ≤ valor * tol := by
  unfold buscar_por_empresa_e_valor at h
  split at h
  · exact absurd h (by simp)
  · have hp := List.find?_some h
    simp only [Bool.and_eq_true, decide_eq_true_eq] at hp
    exact ⟨List.mem_of_find?_eq_some h, hp.1.1, hp.1.2, hp.2⟩

/-- Case analysis of one step of the best-candidate fold of
`buscar_por_valor`. -/
theorem melhorValor_cases {usados : List Nat} {valor dmax : ℚ}
    {acc : Option (Comp × ℚ)} {comp c : Comp} {d : ℚ}
    (h : melhorValor usados valor dmax acc comp = some (c, d)) :
    acc = some (c, d) ∨
      (c = comp ∧ c.id ∉ usados ∧ d ≤ dmax ∧ d = pyAbs (c.valor - valor)) := by
  unfold melhorValor at h
  by_cases hused : comp.id ∈ usados
  · rw [if_pos hused] at h
    exact Or.inl h
  · rw [if_neg hused] at h
    rcases acc with _ | ⟨bc, bd⟩
    · simp only at h
      by_cases hle : pyAbs (comp.valor - valor) ≤ dmax
      · rw [if_pos hle] at h
        simp only [Option.some.injEq, Prod.mk.injEq] at h
        obtain ⟨hc, hd⟩ := h
        subst hc; subst hd
        exact Or.inr ⟨rfl, hused, hle, rfl⟩
      · rw [if_neg hle] at h
        exact absurd h (by simp)
    · simp only at h
      by_cases hle : pyAbs (comp.valor - valor) ≤ dmax ∧ pyAbs (comp.valor - valor) < bd
      · rw [if_pos hle] at h
        simp only [Option.some.injEq, Prod.mk.injEq] at h
        obtain ⟨hc, hd⟩ := h
        subst hc; subst hd
        exact Or.inr ⟨rfl, hused, hle.1, rfl⟩
      · rw [if_neg hle] at h
        exact Or.inl h

/-- Soundness of the best-candidate fold of `buscar_por_valor`: a
produced candidate either is the initial accumulator or comes from the
list, unused, within tolerance, carrying its own distance. -/
theorem melhorValor_fold_sound {usados : List Nat} {valor dmax : ℚ} :
    ∀ (l : List Comp) (acc : Option (Comp × ℚ)) (c : Comp) (d : ℚ),
      l.foldl (melhorValor usados valor dmax) acc = some (c, d) →
      acc = some (c, d) ∨
        (c ∈ l ∧ c.id ∉ usados ∧ d ≤ dmax ∧ d = pyAbs (c.valor - valor)) := by
  intro l
  induction l with
  | nil => intro acc c d h; exact Or.inl h
  | cons comp rest ih =>
    intro acc c d h
    rcases ih (melhorValor usados valor dmax acc comp) c d h with h1 | h1
    · rcases melhorValor_cases h1 with h2 | h2
      · exact Or.inl h2
      · exact Or.inr ⟨h2.1 ▸ List.mem_cons_self _ _, h2.2⟩
    · exact Or.inr ⟨List.mem_cons_of_mem _ h1.1, h1.2⟩

/-- The record returned by `buscar_por_valor` was not marked used,
belongs to the table and is within tolerance. -/
theorem buscar_por_valor_spec {t : TabelaComprovantes} {valor tol : ℚ} {c : Comp}
    (h : buscar_por_valor t valor tol = some c) :
    c ∈ t.comprovantes ∧ c.id ∉ t.usados ∧ pyAbs (c.valor - valor) ≤ valor * tol := by
  unfold buscar_por_valor at h
  split at h
  · exact absurd h (by simp)
  · rcases Option.map_eq_some'.mp h with ⟨⟨c', d⟩, hfold, hc⟩
    cases hc
    rcases melhorValor_fold_sound t.comprovantes none c' d hfold with h1 | h1
    · exact absurd h1 (by simp)
    · exact ⟨h1.1, h1.2.1, h1.2.2.2 ▸ h1.2.2.1⟩

/-- Whatever strategy matched, the returned proof was not yet used. -/
theorem tentar_match_not_used {t : TabelaComprovantes} {b : Boleto} {c : Comp} {m : Metodo}
    (h : tentar_match t b = some (c, m)) : c.id ∉ t.usados := by
  unfold tentar_match at h
  split at h
  · next h1 =>
    cases h
    unfold pass_codigo at h1
    split at h1
    · exact buscar_por_codigo_not_used h1
    · exact absurd h1 (by simp)
  · split at h
    · next h2 =>
      cases h
      unfold pass_empresa_valor at h2
      split at h2
      · exact (buscar_por_empresa_e_valor_spec h2).2.1
      · exact absurd h2 (by simp)
    · split at h
      · next h3 =>
        cases h
        unfold pass_valor at h3
        split at h3
        · exact (buscar_por_valor_spec h3).2.1
        · exact absurd h3 (by simp)
      · exact absurd h (by simp)

/-- Ids already in `usados` are still there after the whole run:
`marcar_usado` only adds, nothing removes. -/
theorem processar_usados_mono :
    ∀ (bs : List Boleto) (t : TabelaComprovantes) (i : Nat),
      i ∈ t.usados → i ∈ (processar t bs).1.usados := by
  intro bs
  induction bs with
  | nil => intro t i hi; exact hi
  | cons b rest ih =>
    intro t i hi
    show i ∈ (processar (passo t b).1 rest).1.usados
    apply ih
    unfold passo
    split
    · exact List.mem_cons_of_mem _ hi
    · exact hi

/-- Every id paired during a run was unused when the run started. -/
theorem processar_matched_fresh :
    ∀ (bs : List Boleto) (t : TabelaComprovantes) (i : Nat),
      i ∈ matchedIds (processar t bs).2 → i ∉ t.usados := by
  intro bs
  induction bs with
  | nil => intro t i hi; simp [processar, matchedIds] at hi
  | cons b rest ih =>
    intro t i hi
    have hstep : (processar t (b :: rest)).2 = (passo t b).2 :: (processar (passo t b).1 rest).2 :=
      rfl
    rw [hstep] at hi
    unfold matchedIds at hi
    rw [List.filterMap_cons] at hi
    rcases hp : tentar_match t b with _ | ⟨c, m⟩
    · have hr : (passo t b).2 = ⟨b, none, none⟩ := by unfold passo; rw [hp]
      rw [hr] at hi
      simp only [Option.map_none'] at hi
      have : i ∈ matchedIds (processar (passo t b).1 rest).2 := hi
      have hnot := ih (passo t b).1 i this
      have ht : (passo t b).1 = t := by unfold passo; rw [hp]
      rw [ht] at hnot
      exact hnot
    · have hr : (passo t b).2 = ⟨b, some c, some m⟩ := by unfold passo; rw [hp]
      have ht : (passo t b).1 = marcar_usado t c.id := by unfold passo; rw [hp]
      rw [hr] at hi
      simp only [Option.map_some'] at hi
      rcases List.mem_cons.mp hi with hi | hi
      · cases hi
        exact tentar_match_not_used hp
      · have hnot := ih (passo t b).1 i hi
        rw [ht] at hnot
        intro hmem
        exact hnot (List.mem_cons_of_mem _ hmem)

/-- The ids paired during a run are pairwise distinct. -/
theorem processar_matched_nodup :
    ∀ (bs : List Boleto) (t : TabelaComprovantes),
      (matchedIds (processar t bs).2).Nodup := by
  intro bs
  induction bs with
  | nil => intro t; simp [processar, matchedIds]
  | cons b rest ih =>
    intro t
    have hstep : (processar t (b :: rest)).2 = (passo t b).2 :: (processar (passo t b).1 rest).2 :=
      rfl
    rw [hstep]
    unfold matchedIds
    rw [List.filterMap_cons]
    rcases hp : tentar_match t b with _ | ⟨c, m⟩
    · have hr : (passo t b).2 = ⟨b, none, none⟩ := by unfold passo; rw [hp]
      rw [hr]
      exact ih (passo t b).1
    · have hr : (passo t b).2 = ⟨b, some c, some m⟩ := by unfold passo; rw [hp]
      have ht : (passo t b).1 = marcar_usado t c.id := by unfold passo; rw [hp]
      rw [hr]
      simp only [Option.map_some']
      refine List.nodup_cons.mpr ⟨?_, ih (passo t b).1⟩
      intro hmem
      have hnot := processar_matched_fresh rest (passo t b).1 c.id hmem
      rw [ht] at hnot
      exact hnot (List.mem_cons_self _ _)

/-- If the step result exists, so does a step from a `some` accumulator;
a `some` accumulator is never discarded. -/
theorem melhorValor_isSome_of_acc {usados : List Nat} {valor dmax : ℚ}
    (p : Comp × ℚ) (comp : Comp) :
    (melhorValor usados valor dmax (some p) comp).isSome := by
  unfold melhorValor
  by_cases hused : comp.id ∈ usados
  · rw [if_pos hused]; rfl
  · rw [if_neg hused]
    rcases p with ⟨bc, bd⟩
    simp only
    split <;> rfl

/-- An unused in-tolerance record makes the step produce a candidate. -/
theorem melhorValor_isSome_of_hit {usados : List Nat} {valor dmax : ℚ}
    {acc : Option (Comp × ℚ)} {comp : Comp} (hused : comp.id ∉ usados)
    (hle : pyAbs (comp.valor - valor) ≤ dmax) :
    (melhorValor usados valor dmax acc comp).isSome := by
  rcases acc with _ | p
  · unfold melhorValor
    rw [if_neg hused]
    simp only
    rw [if_pos hle]
    rfl
  · exact melhorValor_isSome_of_acc p comp

/-- A `some` accumulator survives the whole fold. -/
theorem melhorValor_fold_isSome_mono {usados : List Nat} {valor dmax : ℚ} :
    ∀ (l : List Comp) (acc : Option (Comp × ℚ)), acc.isSome →
      (l.foldl (melhorValor usados valor dmax) acc).isSome := by
  intro l
  induction l with
  | nil => intro acc h; exact h
  | cons comp rest ih =>
    intro acc h
    rcases Option.isSome_iff_exists.mp h with ⟨p, hp⟩
    subst hp
    exact ih _ (melhorValor_isSome_of_acc p comp)

/-- Completeness of the fold: any unused in-tolerance record in the list
forces a candidate out. -/
theorem melhorValor_fold_exists {usados : List Nat} {valor dmax : ℚ} :
    ∀ (l : List Comp) (acc : Option (Comp × ℚ)) (comp : Comp), comp ∈ l →
      comp.id ∉ usados → pyAbs (comp.valor - valor) ≤ dmax →
      (l.foldl (melhorValor usados valor dmax) acc).isSome := by
  intro l
  induction l with
  | nil => intro acc comp h; exact absurd h (List.not_mem_nil comp)
  | cons head rest ih =>
    intro acc comp hmem hused hle
    rcases List.mem_cons.mp hmem with h | h
    · subst h
      exact melhorValor_fold_isSome_mono rest _ (melhorValor_isSome_of_hit hused hle)
    · exact ih _ comp h hused hle

/-- An empty step output means the record was out of tolerance (or used). -/
theorem melhorValor_none {usados : List Nat} {valor dmax : ℚ}
    {acc : Option (Comp × ℚ)} {comp : Comp} (hused : comp.id ∉ usados)
    (h : melhorValor usados valor dmax acc comp = none) :
    dmax < pyAbs (comp.valor - valor) := by
  by_contra hlt
  have hle : pyAbs (comp.valor - valor) ≤ dmax := not_lt.mp hlt
  have := @melhorValor_isSome_of_hit usados valor dmax acc comp hused hle
  rw [h] at this
  exact absurd this (by simp)

/-- The distance stored after a step is at most the distance of the
record just examined, unless that record is out of tolerance. -/
theorem melhorValor_le_dist {usados : List Nat} {valor dmax : ℚ}
    {acc : Option (Comp × ℚ)} {comp y : Comp} {bd' : ℚ} (hused : comp.id ∉ usados)
    (h : melhorValor usados valor dmax acc comp = some (y, bd')) :
    bd' ≤ pyAbs (comp.valor - valor) ∨ dmax < pyAbs (comp.valor - valor) := by
  unfold melhorValor at h
  rw [if_neg hused] at h
  rcases acc with _ | ⟨bc, bd⟩
  · simp only at h
    by_cases hle : pyAbs (comp.valor - valor) ≤ dmax
    · rw [if_pos hle] at h
      simp only [Option.some.injEq, Prod.mk.injEq] at h
      exact Or.inl (le_of_eq h.2.symm)
    · rw [if_neg hle] at h
      exact absurd h (by simp)
  · simp only at h
    by_cases hcond : pyAbs (comp.valor - valor) ≤ dmax ∧ pyAbs (comp.valor - valor) < bd
    · rw [if_pos hcond] at h
      simp only [Option.some.injEq, Prod.mk.injEq] at h
      exact Or.inl (le_of_eq h.2.symm)
    · rw [if_neg hcond] at h
      simp only [Option.some.injEq, Prod.mk.injEq] at h
      rcases not_and_or.mp hcond with h1 | h1
      · exact Or.inr (not_le.mp h1)
      · exact Or.inl (h.2 ▸ not_lt.mp h1)

/-- The distance stored after a step never exceeds the accumulator's. -/
theorem melhorValor_le_acc {usados : List Nat} {valor dmax : ℚ}
    {x comp : Comp} {bd : ℚ} :
    ∃ y bd', melhorValor usados valor dmax (some (x, bd)) comp = some (y, bd') ∧ bd' ≤ bd := by
  unfold melhorValor
  by_cases hused : comp.id ∈ usados
  · rw [if_pos hused]
    exact ⟨x, bd, rfl, le_refl bd⟩
  · rw [if_neg hused]
    simp only
    by_cases hcond : pyAbs (comp.valor - valor) ≤ dmax ∧ pyAbs (comp.valor - valor) < bd
    · rw [if_pos hcond]
      exact ⟨comp, _, rfl, le_of_lt hcond.2⟩
    · rw [if_neg hcond]
      exact ⟨x, bd, rfl, le_refl bd⟩

/-- Any candidate the fold returns is within tolerance (given that the
initial accumulator is). -/
theorem melhorValor_fold_le_dmax {usados : List Nat} {valor dmax : ℚ}
    {l : List Comp} {acc : Option (Comp × ℚ)} {c : Comp} {d : ℚ}
    (hacc : ∀ x bd, acc = some (x, bd) → bd ≤ dmax)
    (h : l.foldl (melhorValor usados valor dmax) acc = some (c, d)) : d ≤ dmax := by
  rcases melhorValor_fold_sound l acc c d h with h1 | h1
  · exact hacc c d h1
  · exact h1.2.2.1

/-- Minimality of the fold: the final distance is at most the distance
of every unused record in the list, and at most the initial
accumulator's distance. -/
theorem melhorValor_fold_min {usados : List Nat} {valor dmax : ℚ} :
    ∀ (l : List Comp) (acc : Option (Comp × ℚ)) (c : Comp) (d : ℚ),
      (∀ x bd, acc = some (x, bd) → bd ≤ dmax) →
      l.foldl (melhorValor usados valor dmax) acc = some (c, d) →
      (∀ x ∈ l, x.id ∉ usados → d ≤ pyAbs (x.valor - valor)) ∧
        (∀ x bd, acc = some (x, bd) → d ≤ bd) := by
  intro l
  induction l with
  | nil =>
    intro acc c d hacc h
    refine ⟨fun x hx => absurd hx (List.not_mem_nil x), fun x bd hx => ?_⟩
    rw [hx] at h
    simp only [List.foldl_nil, Option.some.injEq, Prod.mk.injEq] at h
    exact le_of_eq h.2.symm
  | cons comp rest ih =>
    intro acc c d hacc h
    rw [List.foldl_cons] at h
    have hout : ∀ x bd, melhorValor usados valor dmax acc comp = some (x, bd) → bd ≤ dmax := by
      intro x bd hx
      rcases melhorValor_cases hx with h1 | h1
      · exact hacc x bd h1
      · exact h1.2.2.1
    have hIH := ih (melhorValor usados valor dmax acc comp) c d hout h
    have hdmax : d ≤ dmax := melhorValor_fold_le_dmax hout h
    constructor
    · intro x hx hxused
      rcases List.mem_cons.mp hx with h1 | h1
      · subst h1
        rcases hcaso : melhorValor usados valor dmax acc x with _ | ⟨y, bd'⟩
        · have := melhorValor_none hxused hcaso
          exact le_of_lt (lt_of_le_of_lt hdmax this)
        · have hd_bd : d ≤ bd' := hIH.2 y bd' hcaso
          rcases melhorValor_le_dist hxused hcaso with h2 | h2
          · exact le_trans hd_bd h2
          · exact le_of_lt (lt_of_le_of_lt hdmax h2)
      · exact hIH.1 x h1 hxused
    · intro x bd hx
      subst hx
      rcases @melhorValor_le_acc usados valor dmax x comp bd with ⟨y, bd', hstep, hle⟩
      exact le_trans (hIH.2 y bd' hstep) hle

/-- The try/except combinator never lets an error through. -/
theorem pyTry_ok (e : Except String ℚ) (f : ℚ) : ∃ q, pyTry e f = Except.ok q := by
  rcases e with e' | q
  · exact ⟨f, rfl⟩
  · exact ⟨q, rfl⟩

/-- Completeness: `buscar_por_valor` finds a match whenever some unused record is
within tolerance of a non-zero amount. -/
theorem buscar_por_valor_isSome {t : TabelaComprovantes} {valor tol : ℚ} {comp : Comp}
    (hv : valor ≠ 0) (hmem : comp ∈ t.comprovantes) (hused : comp.id ∉ t.usados)
    (hle : pyAbs (comp.valor - valor) ≤ valor * tol) :
    (buscar_por_valor t valor tol).isSome := by
  unfold buscar_por_valor
  rw [if_neg hv]
  have h := melhorValor_fold_exists t.comprovantes none comp hmem hused hle
  rcases Option.isSome_iff_exists.mp h with ⟨p, hp⟩
  rw [hp]
  rfl

/-- The record `buscar_por_valor` returns is at least as close to the
searched amount as every unused record in the table. -/
theorem buscar_por_valor_min {t : TabelaComprovantes} {valor tol : ℚ} {c : Comp}
    (h : buscar_por_valor t valor tol = some c) :
    ∀ x ∈ t.comprovantes, x.id ∉ t.usados →
      pyAbs (c.valor - valor) ≤ pyAbs (x.valor - valor) := by
  unfold buscar_por_valor at h
  split at h
  · exact absurd h (by simp)
  · rcases Option.map_eq_some'.mp h with ⟨⟨c', d⟩, hfold, hc⟩
    cases hc
    have hmin := melhorValor_fold_min t.comprovantes none c' d (by simp) hfold
    rcases melhorValor_fold_sound t.comprovantes none c' d hfold with h1 | h1
    · exact absurd h1 (by simp)
    · intro x hx hxu
      exact le_trans (le_of_eq h1.2.2.2.symm) (hmin.1 x hx hxu)

/-- Two pointwise-equal predicates find the same first element. -/
theorem find?_congr_pred {α : Type} (p q : α → Bool) (h : ∀ a, p a = q a) :
    ∀ l : List α, l.find? p = l.find? q := by
  intro l
  induction l with
  | nil => rfl
  | cons a as ih => rw [List.find?_cons, List.find?_cons, h a, ih]

/-- Unfolding of the code-match test into a proposition. -/
theorem matchCodigo_eq_true {t : TabelaComprovantes} {cl : String} {c : Comp} :
    matchCodigo t cl c = true ↔
      c.id ∉ t.usados ∧ ∃ cc, c.codigo = some cc ∧ cc ≠ "" ∧
        (cl = limpar cc ∨ strIn cl (limpar cc) = true ∨ strIn (limpar cc) cl = true) := by
  unfold matchCodigo
  rcases hcc : c.codigo with _ | cc
  · simp
  · simp only [Bool.and_eq_true, decide_eq_true_eq, Bool.or_eq_true, beq_iff_eq,
      Bool.not_eq_true', Option.some.injEq]
    constructor
    · rintro ⟨h1, h2, h3⟩
      refine ⟨h1, cc, rfl, ?_, or_assoc.mp h3⟩
      intro hemp
      rw [hemp] at h2
      exact absurd h2 (by simp [String.isEmpty_iff])
    · rintro ⟨h1, cc', hcc', hemp, h3⟩
      cases hcc'
      refine ⟨h1, ?_, or_assoc.mpr h3⟩
      rcases hcase : cc.isEmpty with _ | _
      · rfl
      · exact absurd (String.isEmpty_iff cc |>.mp hcase) hemp

/-- A non-empty string is truthy. -/
theorem pytruthyStr_some {s : String} (hs : s ≠ "") : pytruthyStr (some s) = true := by
  have hemp : s.isEmpty = false := by
    rcases h' : s.isEmpty with _ | _
    · rfl
    · exact absurd ((String.isEmpty_iff s).mp h') hs
  unfold pytruthyStr
  dsimp only
  rw [hemp]
  rfl

/-- Completeness: `buscar_por_codigo` finds a match whenever some record of the table
passes the code test for a truthy search code. -/
theorem buscar_por_codigo_isSome {t : TabelaComprovantes} {codigo : Option String} {comp : Comp}
    (hc : pytruthyStr codigo = true) (hmem : comp ∈ t.comprovantes)
    (hp : matchCodigo t (limpar (codigo.getD "")) comp = true) :
    (buscar_por_codigo t codigo).isSome := by
  unfold buscar_por_codigo
  rw [if_pos hc]
  exact List.find?_isSome.mpr ⟨comp, hmem, hp⟩

/-- Completeness: `buscar_por_empresa_e_valor` finds a match whenever its guard passes
and some unused record overlaps in name within tolerance. -/
theorem buscar_por_empresa_e_valor_isSome {t : TabelaComprovantes} {empresa : String}
    {valor tol : ℚ} {comp : Comp}
    (he : ¬(empresa = "" ∨ empresa = "N/A" ∨ valor = 0)) (hmem : comp ∈ t.comprovantes)
    (hused : comp.id ∉ t.usados)
    (hov : empresaOverlap (pyLowerStrip empresa) (pyLowerStrip comp.empresa) = true)
    (hle : pyAbs (comp.valor - valor) ≤ valor * tol) :
    (buscar_por_empresa_e_valor t empresa valor tol).isSome := by
  unfold buscar_por_empresa_e_valor
  rw [if_neg he]
  apply List.find?_isSome.mpr
  refine ⟨comp, hmem, ?_⟩
  simp only [Bool.and_eq_true, decide_eq_true_eq]
  exact ⟨⟨hused, hov⟩, hle⟩

/-- The matching loop records exactly the input invoices, in order. -/
theorem processar_boletos :
    ∀ (bs : List Boleto) (t : TabelaComprovantes),
      ((processar t bs).2.map Resultado.boleto) = bs := by
  intro bs
  induction bs with
  | nil => intro t; rfl
  | cons b rest ih =>
    intro t
    have hstep : (processar t (b :: rest)).2 = (passo t b).2 :: (processar (passo t b).1 rest).2 :=
      rfl
    rw [hstep, List.map_cons, ih (passo t b).1]
    have : (passo t b).2.boleto = b := by
      unfold passo
      rcases tentar_match t b with _ | ⟨c, m⟩ <;> rfl
    rw [this]

/-!
## Claims
-/

/-- Claim C1 (confirmed).  At-most-one-use: over a whole matching run,
the ids of paired proofs are pairwise distinct; every paired proof was
unused when the run started (all three searches skip used records); and
an id marked used is never unmarked by the run. -/
theorem C1_at_most_one_use (t : TabelaComprovantes) (bs : List Boleto) :
    (matchedIds (processar t bs).2).Nodup ∧
      (∀ i ∈ matchedIds (processar t bs).2, i ∉ t.usados) ∧
      (∀ i ∈ t.usados, i ∈ (processar t bs).1.usados) :=
  ⟨processar_matched_nodup bs t,
    fun i hi => processar_matched_fresh bs t i hi,
    fun i hi => processar_usados_mono bs t i hi⟩

/-- Claim C2 counterexample.  The claim requires equal codes or a shared
prefix of at least 20 digits, but the code accepts any substring
containment: the 3-digit code `123` matches the proof code `123456`. -/
theorem C2_counterexample :
    buscar_por_codigo ⟨[⟨0, some "123456", 0, "N/A"⟩], []⟩ (some "123") =
        some ⟨0, some "123456", 0, "N/A"⟩ ∧
      (limpar "123").length = 3 := by
  constructor
  · decide
  · decide

/-- Claim C2 amended (proved).  Code-based matching accepts a proof
exactly when, after stripping non-digits from both codes, the codes are
equal or one cleaned code is a substring of the other — with no minimum
shared length; the returned record is unused and its stored code truthy. -/
theorem C2_amended (t : TabelaComprovantes) (s : String) :
    (∀ c, buscar_por_codigo t (some s) = some c →
      c ∈ t.comprovantes ∧ c.id ∉ t.usados ∧
        ∃ cc, c.codigo = some cc ∧ cc ≠ "" ∧
          (limpar s = limpar cc ∨ strIn (limpar s) (limpar cc) = true ∨
            strIn (limpar cc) (limpar s) = true)) ∧
    (s ≠ "" → ∀ c ∈ t.comprovantes, c.id ∉ t.usados →
      (∃ cc, c.codigo = some cc ∧ cc ≠ "" ∧
        (limpar s = limpar cc ∨ strIn (limpar s) (limpar cc) = true ∨
          strIn (limpar cc) (limpar s) = true)) →
      (buscar_por_codigo t (some s)).isSome) := by
  constructor
  · intro c hc
    have hspec := buscar_por_codigo_spec hc
    have hm := matchCodigo_eq_true.mp hspec.2
    exact ⟨hspec.1, hm.1, hm.2⟩
  · intro hs c hmem hused hex
    apply buscar_por_codigo_isSome (pytruthyStr_some hs) hmem
    exact matchCodigo_eq_true.mpr ⟨hused, hex⟩

/-- Witness for C2_amended at a concrete input: the 3-digit search code
`123` and one unused proof with code `123456`. -/
theorem C2_amended_witness :
    (buscar_por_codigo ⟨[⟨0, some "123456", 0, "N/A"⟩], []⟩ (some "123")).isSome :=
  (C2_amended ⟨[⟨0, some "123456", 0, "N/A"⟩], []⟩ "123").2 (by decide)
    ⟨0, some "123456", 0, "N/A"⟩ (by decide) (by decide)
    ⟨"123456", rfl, by decide, by decide⟩

/-- Claim C3 (confirmed).  The three strategies run in the fixed order
code, company+amount, amount-only; a later strategy runs only when every
earlier one returned nothing, and the recorded method is the strategy
that succeeded. -/
theorem C3_pass_ordering (t : TabelaComprovantes) (b : Boleto) :
    (∀ c, tentar_match t b = some (c, Metodo.CODIGO) ↔ pass_codigo t b = some c) ∧
    (∀ c, tentar_match t b = some (c, Metodo.EMPRESA_VALOR) ↔
      pass_codigo t b = none ∧ pass_empresa_valor t b = some c) ∧
    (∀ c, tentar_match t b = some (c, Metodo.VALOR) ↔
      pass_codigo t b = none ∧ pass_empresa_valor t b = none ∧ pass_valor t b = some c) ∧
    (tentar_match t b = none ↔
      pass_codigo t b = none ∧ pass_empresa_valor t b = none ∧ pass_valor t b = none) := by
  unfold tentar_match
  rcases h1 : pass_codigo t b with _ | c1
  · rcases h2 : pass_empresa_valor t b with _ | c2
    · rcases h3 : pass_valor t b with _ | c3 <;> simp
    · simp
  · simp

/-- Witness for C3_pass_ordering: with no code and company `N/A`, the
amount-only strategy is the one that fires and is recorded. -/
theorem C3_pass_ordering_witness :
    tentar_match ⟨[⟨0, none, 402, "N/A"⟩, ⟨1, none, 402, "N/A"⟩], []⟩
        ⟨"fatura.pdf", none, 402, "N/A"⟩ =
      some (⟨0, none, 402, "N/A"⟩, Metodo.VALOR) :=
  ((C3_pass_ordering ⟨[⟨0, none, 402, "N/A"⟩, ⟨1, none, 402, "N/A"⟩], []⟩
      ⟨"fatura.pdf", none, 402, "N/A"⟩).2.2.1 ⟨0, none, 402, "N/A"⟩).mpr
    ⟨rfl, rfl, by
      norm_num [pass_valor, buscar_por_valor, melhorValor, pyAbs, TOLERANCIA_VALOR_PERCENT]⟩

/-- Claim C10 (confirmed).  A truthy search code with no digit cleans to
the empty string, which is a substring of every cleaned code, so the
search degenerates to "first unused record with a truthy stored code". -/
theorem C10_digitless_code (t : TabelaComprovantes) (s : String) (hs : s ≠ "")
    (hnd : ∀ c ∈ s.data, c.isDigit = false) :
    buscar_por_codigo t (some s) =
      t.comprovantes.find? (fun comp => decide (comp.id ∉ t.usados) && pytruthyStr comp.codigo) := by
  have hlimp : limpar s = "" := by
    unfold limpar
    have h : s.data.filter Char.isDigit = [] :=
      List.filter_eq_nil_iff.mpr (fun c hc => by rw [hnd c hc]; exact Bool.false_ne_true)
    rw [h]
  unfold buscar_por_codigo
  rw [if_pos (pytruthyStr_some hs)]
  have hgd : (some s).getD "" = s := rfl
  rw [hgd, hlimp]
  apply find?_congr_pred
  intro comp
  unfold matchCodigo pytruthyStr
  rcases comp.codigo with _ | cc
  · rfl
  · dsimp only
    have hsub : strIn "" (limpar cc) = true := isSub_nil (limpar cc).data
    rw [hsub]
    simp only [Bool.or_true, Bool.true_or, Bool.and_true]

/-- Witness for C10_digitless_code: the digitless code `XYZ` is matched
to the first proof with a truthy code even though the codes share
nothing. -/
theorem C10_digitless_code_witness :
    buscar_por_codigo ⟨[⟨0, some "ABC9", 1, "X"⟩], []⟩ (some "XYZ") =
      some ⟨0, some "ABC9", 1, "X"⟩ :=
  (C10_digitless_code ⟨[⟨0, some "ABC9", 1, "X"⟩], []⟩ "XYZ" (by decide) (by decide)).trans
    (by decide)

/-- Claim C4 counterexample.  The claim says an invoice of 402.00 facing
two unused proofs both of amount 402.00 (no code, no name) stays
unmatched, but `buscar_por_valor` keeps the closest candidate (first on
ties) with no uniqueness test, so the invoice is paired with the first
proof by the amount-only strategy. -/
theorem C4_counterexample :
    tentar_match ⟨[⟨0, none, 402, "N/A"⟩, ⟨1, none, 402, "N/A"⟩], []⟩
        ⟨"fatura.pdf", none, 402, "N/A"⟩ =
      some (⟨0, none, 402, "N/A"⟩, Metodo.VALOR) := by
  norm_num [tentar_match, pass_codigo, pass_empresa_valor, pass_valor, buscar_por_codigo,
    buscar_por_valor, buscar_por_empresa_e_valor, pytruthyStr, melhorValor, pyAbs,
    TOLERANCIA_VALOR_PERCENT]

/-- Claim C4 amended (proved).  The amount-only search pairs an invoice
whenever at least one unused proof is within the 2% tolerance — no
uniqueness is required — and it returns an unused in-tolerance proof of
minimal amount distance among all unused proofs. -/
theorem C4_amended (t : TabelaComprovantes) (v : ℚ) (hv : v ≠ 0) :
    ((∃ comp ∈ t.comprovantes, comp.id ∉ t.usados ∧
        pyAbs (comp.valor - v) ≤ v * TOLERANCIA_VALOR_PERCENT) →
      (buscar_por_valor t v TOLERANCIA_VALOR_PERCENT).isSome) ∧
    (∀ c, buscar_por_valor t v TOLERANCIA_VALOR_PERCENT = some c →
      c ∈ t.comprovantes ∧ c.id ∉ t.usados ∧
        pyAbs (c.valor - v) ≤ v * TOLERANCIA_VALOR_PERCENT ∧
        ∀ x ∈ t.comprovantes, x.id ∉ t.usados → pyAbs (c.valor - v) ≤ pyAbs (x.valor - v)) := by
  constructor
  · rintro ⟨comp, hmem, hused, hle⟩
    exact buscar_por_valor_isSome hv hmem hused hle
  · intro c hc
    have hspec := buscar_por_valor_spec hc
    exact ⟨hspec.1, hspec.2.1, hspec.2.2, buscar_por_valor_min hc⟩

/-- Witness for C4_amended at the two-proofs-of-402 table. -/
theorem C4_amended_witness :
    (buscar_por_valor ⟨[⟨0, none, 402, "N/A"⟩, ⟨1, none, 402, "N/A"⟩], []⟩ 402
      TOLERANCIA_VALOR_PERCENT).isSome :=
  (C4_amended ⟨[⟨0, none, 402, "N/A"⟩, ⟨1, none, 402, "N/A"⟩], []⟩ 402 (by norm_num)).1
    ⟨⟨0, none, 402, "N/A"⟩, by decide, by decide,
      by norm_num [pyAbs, TOLERANCIA_VALOR_PERCENT]⟩

/-- Claim C5 counterexample.  A session that ends with exactly one
unmatched invoice (no code, zero amount) and exactly one unused proof:
the claim says they are paired unconditionally, but the run leaves the
invoice unmatched and the proof unused — there is no last-resort pass. -/
theorem C5_counterexample :
    processar ⟨[⟨0, none, 50, "N/A"⟩], []⟩ [⟨"boleto.pdf", none, 0, "N/A"⟩] =
      (⟨[⟨0, none, 50, "N/A"⟩], []⟩, [⟨⟨"boleto.pdf", none, 0, "N/A"⟩, none, none⟩]) := by
  decide

/-- Claim C5 amended (proved).  The funnel has no fourth pass: when the
code, company+amount and amount-only strategies all fail for an invoice,
it is recorded unmatched and the table is unchanged — even if exactly
one invoice and one proof remain at that point. -/
theorem C5_amended (t : TabelaComprovantes) (b : Boleto)
    (h1 : pass_codigo t b = none) (h2 : pass_empresa_valor t b = none)
    (h3 : pass_valor t b = none) :
    passo t b = (t, ⟨b, none, none⟩) := by
  unfold passo tentar_match
  rw [h1, h2, h3]

/-- Witness for C5_amended at the one-invoice-one-proof session. -/
theorem C5_amended_witness :
    passo ⟨[⟨0, none, 50, "N/A"⟩], []⟩ ⟨"boleto.pdf", none, 0, "N/A"⟩ =
      (⟨[⟨0, none, 50, "N/A"⟩], []⟩, ⟨⟨"boleto.pdf", none, 0, "N/A"⟩, none, none⟩) :=
  C5_amended ⟨[⟨0, none, 50, "N/A"⟩], []⟩ ⟨"boleto.pdf", none, 0, "N/A"⟩
    (by decide) (by decide) (by decide)

/-- Claim C6 counterexample.  On a throttling response the claim
requires a retry (up to 3 attempts with backoff); the code makes exactly
one service call and fails soft, even though a second attempt would have
returned data. -/
theorem C6_counterexample :
    extrair_com_gemini none true
        (fun n => if n = 0 then GemOutcome.throttled
          else GemOutcome.ok (some "123") (some (.str "402.00")) (some "ACME")) =
      (gemResultadoVazio, 1) := by
  decide

/-- Claim C6 amended (proved).  Every call of `extrair_com_gemini` makes
at most one service attempt — throttling is never retried — and every
failure outcome (throttling, any other exception, malformed JSON) fails
soft with `codigo = None`, `valor = 0.0`. -/
theorem C6_amended :
    (∀ (cached : Option GemResultado) (temImagem : Bool) (oracle : Nat → GemOutcome),
      (extrair_com_gemini cached temImagem oracle).2 ≤ 1) ∧
    (∀ oracle : Nat → GemOutcome,
      (oracle 0 = GemOutcome.throttled ∨ oracle 0 = GemOutcome.exn ∨
        oracle 0 = GemOutcome.malformed) →
      extrair_com_gemini none true oracle = (gemResultadoVazio, 1)) := by
  constructor
  · intro cached temImagem oracle
    unfold extrair_com_gemini
    rcases cached with _ | r
    · dsimp only
      by_cases h : temImagem
      · rw [if_pos h]
        rcases oracle 0 <;> simp
      · rw [if_neg h]
        simp
    · simp
  · intro oracle h
    unfold extrair_com_gemini
    dsimp only
    rw [if_pos rfl]
    rcases h with h | h | h <;> rw [h]

/-- Witness for C6_amended: a permanently-throttled service. -/
theorem C6_amended_witness :
    extrair_com_gemini none true (fun _ => GemOutcome.throttled) = (gemResultadoVazio, 1) :=
  C6_amended.2 (fun _ => GemOutcome.throttled) (Or.inl rfl)

/-- Claim C7 counterexample.  Two input invoices, one of which fails to
process: the run neither aborts nor bundles both — it completes with an
archive holding a single entry, i.e. a bundle missing an input invoice. -/
theorem C7_counterexample :
    processar_reconciliacao (some []) [some ⟨"b1.pdf", none, 0, "N/A"⟩, none]
          (fun _ => true) true ≠ RunSaida.fatal ∧
      ∀ entries,
        processar_reconciliacao (some []) [some ⟨"b1.pdf", none, 0, "N/A"⟩, none]
            (fun _ => true) true = RunSaida.done entries →
          entries.length ≠ 2 := by
  have hrun : processar_reconciliacao (some []) [some ⟨"b1.pdf", none, 0, "N/A"⟩, none]
      (fun _ => true) true = RunSaida.done ["b1.pdf"] := by decide
  constructor
  · rw [hrun]
    exact fun h => RunSaida.noConfusion h
  · intro entries he
    rw [hrun] at he
    cases he
    decide

/-- Claim C7 amended (proved).  A failed proof-file read or a failed
archive write ends the run with no archive; per-invoice failures are
skipped (their invoices are simply absent from the archive); and when
every invoice is read and assembled successfully the archive holds
exactly one entry per input invoice, in order. -/
theorem C7_amended :
    (∀ (boletos : List (Option Boleto)) (g : String → Bool) (z : Bool),
      processar_reconciliacao none boletos g z = RunSaida.fatal) ∧
    (∀ (comps : List Comp) (boletos : List (Option Boleto)) (g : String → Bool),
      processar_reconciliacao (some comps) boletos g false = RunSaida.fatal) ∧
    (∀ (comps : List Comp) (bs : List Boleto) (g : String → Bool),
      (∀ b ∈ bs, g b.nome = true) →
      processar_reconciliacao (some comps) (bs.map some) g true =
        RunSaida.done (bs.map Boleto.nome)) := by
  refine ⟨fun boletos g z => rfl, fun comps boletos g => rfl, ?_⟩
  intro comps bs g hall
  unfold processar_reconciliacao
  dsimp only
  rw [if_pos rfl]
  have hfm : (bs.map some).filterMap id = bs := by
    induction bs with
    | nil => rfl
    | cons b rest ih => simp [ih]
  rw [hfm]
  have hfilter : ((processar ⟨comps, []⟩ bs).2.filter (fun r => g r.boleto.nome)) =
      (processar ⟨comps, []⟩ bs).2 := by
    apply List.filter_eq_self.mpr
    intro r hr
    apply hall
    have : r.boleto ∈ (processar ⟨comps, []⟩ bs).2.map Resultado.boleto :=
      List.mem_map_of_mem Resultado.boleto hr
    rw [processar_boletos bs ⟨comps, []⟩] at this
    exact this
  rw [hfilter]
  have hmm : ((processar ⟨comps, []⟩ bs).2.map (fun r => r.boleto.nome)) =
      ((processar ⟨comps, []⟩ bs).2.map Resultado.boleto).map Boleto.nome := by
    rw [List.map_map]
    rfl
  rw [hmm, processar_boletos bs ⟨comps, []⟩]

/-- Witness for C7_amended: a clean two-invoice run bundles both. -/
theorem C7_amended_witness :
    processar_reconciliacao (some [⟨0, none, 50, "N/A"⟩])
        ([⟨"b1.pdf", none, 0, "N/A"⟩, ⟨"b2.pdf", none, 0, "N/A"⟩].map some)
        (fun _ => true) true =
      RunSaida.done ["b1.pdf", "b2.pdf"] :=
  C7_amended.2.2 [⟨0, none, 50, "N/A"⟩]
    [⟨"b1.pdf", none, 0, "N/A"⟩, ⟨"b2.pdf", none, 0, "N/A"⟩]
    (fun _ => true) (fun _ _ => rfl)

/-- Claim C8 (confirmed).  `normalizar_valor` never propagates an
exception for any input type (numbers pass through, non-string
non-number types and unparseable strings give `0.0`), and it parses the
Brazilian, plain-comma and dot-decimal forms, stripping `R$` and
whitespace. -/
theorem C8_normalizar_valor_total :
    (∀ v : PyVal, ∃ q, normalizar_valor v = Except.ok q) ∧
      normalizar_valor (.str "1.234,56") = Except.ok (123456 / 100) ∧
      normalizar_valor (.str "1234,56") = Except.ok (123456 / 100) ∧
      normalizar_valor (.str "1234.56") = Except.ok (123456 / 100) ∧
      normalizar_valor (.str " R$ 1.234,56 ") = Except.ok (123456 / 100) ∧
      normalizar_valor (.str "abc") = Except.ok 0 ∧
      normalizar_valor PyVal.other = Except.ok 0 := by
  refine ⟨?_, ?_, ?_, ?_, ?_, by decide, rfl⟩
  · intro v
    cases v with
    | int n => exact ⟨n, rfl⟩
    | float q => exact ⟨q, rfl⟩
    | noneV => exact ⟨0, rfl⟩
    | other => exact ⟨0, rfl⟩
    | str s =>
      unfold normalizar_valor
      dsimp only
      apply pyTry_ok
  · have h : normalizar_valor (.str "1.234,56") =
        Except.ok (((1234 : ℕ) : ℚ) + ((56 : ℕ) : ℚ) / 10 ^ (2 : ℕ)) := rfl
    rw [h]
    norm_num
  · have h : normalizar_valor (.str "1234,56") =
        Except.ok (((1234 : ℕ) : ℚ) + ((56 : ℕ) : ℚ) / 10 ^ (2 : ℕ)) := rfl
    rw [h]
    norm_num
  · have h : normalizar_valor (.str "1234.56") =
        Except.ok (((1234 : ℕ) : ℚ) + ((56 : ℕ) : ℚ) / 10 ^ (2 : ℕ)) := rfl
    rw [h]
    norm_num
  · have h : normalizar_valor (.str " R$ 1.234,56 ") =
        Except.ok (((1234 : ℕ) : ℚ) + ((56 : ℕ) : ℚ) / 10 ^ (2 : ℕ)) := rfl
    rw [h]
    norm_num

/-- Claim C9 (confirmed).  Both amount-based searches compare with `<=`:
a proof whose amount differs from the searched amount by exactly the
2% tolerance is accepted by the amount-only search and, when its name
overlaps, by the company+amount search as well. -/
theorem C9_tolerance_inclusive (t : TabelaComprovantes) (v : ℚ) (c : Comp) (e : String)
    (hmem : c ∈ t.comprovantes) (hused : c.id ∉ t.usados) (hv : 0 < v)
    (hex : pyAbs (c.valor - v) = v * TOLERANCIA_VALOR_PERCENT) :
    (buscar_por_valor t v TOLERANCIA_VALOR_PERCENT).isSome ∧
      (e ≠ "" → e ≠ "N/A" →
        empresaOverlap (pyLowerStrip e) (pyLowerStrip c.empresa) = true →
        (buscar_por_empresa_e_valor t e v TOLERANCIA_VALOR_PERCENT).isSome) := by
  constructor
  · exact buscar_por_valor_isSome (ne_of_gt hv) hmem hused (le_of_eq hex)
  · intro he1 he2 hov
    apply buscar_por_empresa_e_valor_isSome ?_ hmem hused hov (le_of_eq hex)
    push_neg
    exact ⟨he1, he2, ne_of_gt hv⟩

/-- Witness for C9_tolerance_inclusive: amount 102 against search amount
100 differs by exactly 2 = 100 · 2%. -/
theorem C9_tolerance_inclusive_witness :
    (buscar_por_valor ⟨[⟨0, none, 102, "acme"⟩], []⟩ 100 TOLERANCIA_VALOR_PERCENT).isSome ∧
      (buscar_por_empresa_e_valor ⟨[⟨0, none, 102, "acme"⟩], []⟩ "acme" 100
        TOLERANCIA_VALOR_PERCENT).isSome := by
  have H := C9_tolerance_inclusive ⟨[⟨0, none, 102, "acme"⟩], []⟩ 100
    ⟨0, none, 102, "acme"⟩ "acme" (by decide) (by decide) (by norm_num)
    (by norm_num [pyAbs, TOLERANCIA_VALOR_PERCENT])
  exact ⟨H.1, H.2 (by decide) (by decide) (by decide)⟩

end Reconc
